import Mathlib

/-!
Verification of the DNA Explorer backend (`src/DNA2/main.py`).

The Python source is shallowly embedded: strings become `List Char`,
floating-point arithmetic is modelled over `ℝ` (exact rationals `ℚ` where the
computation stays rational, `ℕ` where it stays integral), Python dict results
become inductive types, and the mutable module-level state becomes an explicit
`ServerState` record threaded through the handlers.  Randomness and WebSocket
sends are modelled by oracles (`rand : Nat → Fin 4`, `sendOk : C → Bool`).
-/

/-- `class DNABase`: a DNA base with position and properties.  The
`position: List[float]` of length 3 is modelled as a real triple. -/
structure DNABase where
  base_type : Char
  position : ℝ × ℝ × ℝ
  strand : Nat
  index : Nat
  pair_index : Option Nat

namespace DNAUtilities

/-- The per-character lookup `complement_map.get(base, 'N')` used by
`get_complement`, with `complement_map = {'A':'T','T':'A','G':'C','C':'G'}`. -/
def complement_map (base : Char) : Char :=
  if base = 'A' then 'T'
  else if base = 'T' then 'A'
  else if base = 'G' then 'C'
  else if base = 'C' then 'G'
  else 'N'

/-- `DNAUtilities.get_complement`: complement of the uppercased sequence,
unknown characters mapping to `'N'`. -/
def get_complement (sequence : List Char) : List Char :=
  (sequence.map Char.toUpper).map complement_map

/-- `DNAUtilities.calculate_gc_content`: GC percentage, `0` for the empty
sequence.  Python computes `(gc_count / len(sequence)) * 100` in float
arithmetic; over these integer inputs it is exact rational arithmetic. -/
def calculate_gc_content (sequence : List Char) : ℚ :=
  let gc_count := (sequence.map Char.toUpper).count 'G'
    + (sequence.map Char.toUpper).count 'C'
  if sequence = [] then 0 else ((gc_count : ℚ) / (sequence.length : ℚ)) * 100

/-- `DNAUtilities.calculate_melting_temperature` (Wallace rule); the Python
computation is pure integer arithmetic. -/
def calculate_melting_temperature (sequence : List Char) : ℕ :=
  let at_count := (sequence.map Char.toUpper).count 'A'
    + (sequence.map Char.toUpper).count 'T'
  let gc_count := (sequence.map Char.toUpper).count 'G'
    + (sequence.map Char.toUpper).count 'C'
  at_count * 2 + gc_count * 4

/-- `DNAUtilities.generate_random_sequence`: `random.choices(bases, k=length)`
with the random draws supplied by the oracle `rand`. -/
def generate_random_sequence (rand : Nat → Fin 4) (length : Nat) : List Char :=
  let bases : List Char := ['A', 'T', 'G', 'C']
  (List.range length).map (fun k => bases.get (rand k))

/-- `DNAUtilities.generate_3d_coordinates`: for each index `i` of
`enumerate(zip(sequence, complement_sequence))` emit the strand-1 base and the
strand-2 base at helix angle `(i / total_pairs) * π * 4`. -/
noncomputable def generate_3d_coordinates (sequence : List Char)
    (helix_radius : ℝ) (base_pair_distance : ℝ) : List DNABase :=
  let complement_sequence := get_complement sequence
  let total_pairs := sequence.length
  ((sequence.zip complement_sequence).enum).flatMap (fun p =>
    let i := p.1
    let base1 := p.2.1
    let base2 := p.2.2
    let angle : ℝ := ((i : ℝ) / (total_pairs : ℝ)) * Real.pi * 4
    let y : ℝ := ((i : ℝ) - (total_pairs : ℝ) / 2) * base_pair_distance
    let x1 := helix_radius * Real.cos angle
    let z1 := helix_radius * Real.sin angle
    let x2 := helix_radius * Real.cos (angle + Real.pi)
    let z2 := helix_radius * Real.sin (angle + Real.pi)
    [{ base_type := base1, position := (x1, y, z1), strand := 1, index := i,
       pair_index := some i },
     { base_type := base2, position := (x2, y, z2), strand := 2, index := i,
       pair_index := some i }])

end DNAUtilities

open DNAUtilities

/-! ### Character-level helper lemmas -/

/-- `Char.ofNat` of a scalar value below the surrogate range decodes back. -/
theorem char_toNat_ofNat_valid (n : Nat) (h : n < 55296) :
    (Char.ofNat n).toNat = n := by
  unfold Char.ofNat
  rw [dif_pos (Or.inl h)]
  simp [Char.ofNatAux, Char.toNat, UInt32.toNat]

/-- `Char.toUpper` is idempotent. -/
theorem char_toUpper_idem (c : Char) : c.toUpper.toUpper = c.toUpper := by
  unfold Char.toUpper
  by_cases h : c.toNat ≥ 97 ∧ c.toNat ≤ 122
  · rw [if_pos h]
    have hv : (Char.ofNat (c.toNat - 32)).toNat = c.toNat - 32 :=
      char_toNat_ofNat_valid _ (by omega)
    rw [if_neg]
    rw [hv]
    omega
  · rw [if_neg h, if_neg h]

/-- The uppercasing-plus-replacement that `get_complement ∘ get_complement`
turns out to implement. -/
def normalize_char (c : Char) : Char :=
  if c.toUpper ∈ (['A', 'T', 'G', 'C'] : List Char) then c.toUpper else 'N'

theorem complement_map_toUpper_eq_normalize (c : Char) :
    complement_map (Char.toUpper (complement_map (Char.toUpper c))) =
      normalize_char c := by
  unfold normalize_char
  by_cases hA : c.toUpper = 'A'
  · rw [hA]; decide
  by_cases hT : c.toUpper = 'T'
  · rw [hT]; decide
  by_cases hG : c.toUpper = 'G'
  · rw [hG]; decide
  by_cases hC : c.toUpper = 'C'
  · rw [hC]; decide
  have hcm : complement_map (Char.toUpper c) = 'N' := by
    unfold complement_map
    simp [hA, hT, hG, hC]
  rw [hcm, if_neg (by simp [hA, hT, hG, hC])]
  decide

/-- Applying `get_complement` twice uppercases and replaces every
non-`{A,T,G,C}` character by `'N'`. -/
theorem double_complement_eq_map_normalize (s : List Char) :
    get_complement (get_complement s) = s.map normalize_char := by
  unfold get_complement
  rw [List.map_map, List.map_map, List.map_map]
  exact List.map_congr_left (fun c _ => complement_map_toUpper_eq_normalize c)

theorem normalize_char_idem (c : Char) :
    normalize_char (normalize_char c) = normalize_char c := by
  unfold normalize_char
  by_cases h : c.toUpper ∈ (['A', 'T', 'G', 'C'] : List Char)
  · rw [if_pos h, if_pos (by rw [char_toUpper_idem]; exact h),
      char_toUpper_idem]
  · rw [if_neg h]
    decide

/-- Count of a value in a mapped list, as a `countP` over the original list. -/
theorem count_map_eq_countP (l : List Char) (f : Char → Char) (a : Char) :
    (l.map f).count a = l.countP (fun c => f c == a) :=
  List.countP_map (· == a) f l

/-- Two pointwise-exclusive `countP`s jointly never exceed the length. -/
theorem countP_add_countP_le_length (l : List Char) (p q : Char → Bool)
    (h : ∀ a, ¬(p a = true ∧ q a = true)) :
    l.countP p + l.countP q ≤ l.length := by
  induction l with
  | nil => simp
  | cons a t ih =>
    simp only [List.countP_cons, List.length_cons]
    by_cases hp : p a = true <;> by_cases hq : q a = true
    · exact absurd ⟨hp, hq⟩ (h a)
    all_goals
      simp [hp, hq]
      omega

/-! ### C6: the complement is an involution on `{A,T,G,C}` strings -/

/-- C6: on sequences over `{A,T,G,C}` (uppercase), `get_complement` is an
involution; it maps `A↔T` and `G↔C` per character, is case-insensitive on
input, produces only uppercase output characters (from `{A,T,G,C,N}`), and
sends every unrecognized character to `'N'` instead of failing. -/
theorem c6_complement_involution (s : List Char) :
    ((∀ c ∈ s, c ∈ (['A', 'T', 'G', 'C'] : List Char)) →
      get_complement (get_complement s) = s) ∧
    complement_map 'A' = 'T' ∧ complement_map 'T' = 'A' ∧
    complement_map 'G' = 'C' ∧ complement_map 'C' = 'G' ∧
    get_complement (s.map Char.toUpper) = get_complement s ∧
    (∀ c ∈ get_complement s, c ∈ (['A', 'T', 'G', 'C', 'N'] : List Char)) ∧
    (∀ c : Char, c.toUpper ∉ (['A', 'T', 'G', 'C'] : List Char) →
      complement_map c.toUpper = 'N') := by
  refine ⟨fun h => ?_, by decide, by decide, by decide, by decide, ?_, ?_, ?_⟩
  · rw [double_complement_eq_map_normalize]
    have : ∀ c ∈ s, normalize_char c = c := by
      intro c hc
      have := h c hc
      fin_cases this <;> decide
    rw [List.map_congr_left this]
    exact List.map_id s
  · unfold get_complement
    simp only [List.map_map]
    exact List.map_congr_left (fun c _ => by
      simp only [Function.comp_apply, char_toUpper_idem])
  · intro c hc
    unfold get_complement at hc
    rw [List.map_map] at hc
    obtain ⟨a, _, ha⟩ := List.mem_map.mp hc
    have : ∀ x : Char, complement_map x ∈
        (['A', 'T', 'G', 'C', 'N'] : List Char) := by
      intro x
      unfold complement_map
      split_ifs <;> decide
    rw [← ha]
    exact this _
  · intro c hmem
    unfold complement_map
    have h1 : ¬ c.toUpper = 'A' := fun h => hmem (by rw [h]; decide)
    have h2 : ¬ c.toUpper = 'T' := fun h => hmem (by rw [h]; decide)
    have h3 : ¬ c.toUpper = 'G' := fun h => hmem (by rw [h]; decide)
    have h4 : ¬ c.toUpper = 'C' := fun h => hmem (by rw [h]; decide)
    simp [h1, h2, h3, h4]

/-- C6 witness: the involution at the concrete sequence `ATGC`. -/
theorem c6_complement_involution_witness :
    get_complement (get_complement ['A', 'T', 'G', 'C']) =
      ['A', 'T', 'G', 'C'] :=
  (c6_complement_involution ['A', 'T', 'G', 'C']).1 (by decide)

/-! ### C7: melting temperature is the exact Wallace-rule count -/

/-- C7: `calculate_melting_temperature s` equals twice the number of `A`/`T`
characters plus four times the number of `G`/`C` characters of `s`, counted
case-insensitively. -/
theorem c7_melting_temperature (s : List Char) :
    calculate_melting_temperature s =
      2 * (s.countP (fun c => c.toUpper == 'A')
        + s.countP (fun c => c.toUpper == 'T'))
      + 4 * (s.countP (fun c => c.toUpper == 'G')
        + s.countP (fun c => c.toUpper == 'C')) := by
  unfold calculate_melting_temperature
  simp only [count_map_eq_countP]
  ring

/-! ### C8: GC content is bounded and division-safe -/

/-- C8: for every string `s`, `calculate_gc_content s` lies in `[0, 100]`;
it is `0` on the empty string with no division by zero, and on a non-empty
string equals `100 * (#G + #C) / length` (counting case-insensitively). -/
theorem c8_gc_content (s : List Char) :
    0 ≤ calculate_gc_content s ∧ calculate_gc_content s ≤ 100 ∧
    calculate_gc_content [] = 0 ∧
    (s ≠ [] → calculate_gc_content s =
      100 * ((s.countP (fun c => c.toUpper == 'G')
        + s.countP (fun c => c.toUpper == 'C') : ℕ) : ℚ) / (s.length : ℚ)) := by
  have hcount : (s.map Char.toUpper).count 'G' + (s.map Char.toUpper).count 'C'
      = s.countP (fun c => c.toUpper == 'G')
        + s.countP (fun c => c.toUpper == 'C') := by
    simp only [count_map_eq_countP]
  refine ⟨?_, ?_, by unfold calculate_gc_content; simp, fun hne => ?_⟩
  · unfold calculate_gc_content
    split_ifs with h
    · norm_num
    · positivity
  · unfold calculate_gc_content
    split_ifs with h
    · norm_num
    · have hlen : 0 < s.length := List.length_pos.mpr h
      have hle : (s.map Char.toUpper).count 'G'
          + (s.map Char.toUpper).count 'C' ≤ s.length := by
        rw [hcount]
        exact countP_add_countP_le_length s _ _ (by
          intro a
          simp only [beq_iff_eq, not_and]
          intro h1 h2
          rw [h1] at h2
          exact absurd h2 (by decide))
      have hgc : (((s.map Char.toUpper).count 'G'
          + (s.map Char.toUpper).count 'C' : ℕ) : ℚ) ≤ (s.length : ℚ) := by
        exact_mod_cast hle
      rw [div_mul_eq_mul_div, div_le_iff₀ (by exact_mod_cast hlen)]
      push_cast at hgc ⊢
      nlinarith [hgc]
  · unfold calculate_gc_content
    rw [if_neg hne, ← hcount]
    push_cast
    ring

/-- C8 witness: the non-empty-string equation at the one-letter string `G`. -/
theorem c8_gc_content_witness :
    calculate_gc_content ['G'] =
      100 * (((['G'] : List Char).countP (fun c => c.toUpper == 'G')
        + (['G'] : List Char).countP (fun c => c.toUpper == 'C') : ℕ) : ℚ)
        / ((['G'] : List Char).length : ℚ) :=
  (c8_gc_content ['G']).2.2.2 (by decide)

/-! ### C10: the double complement normalizes arbitrary input -/

/-- C10: for every string, applying `get_complement` twice uppercases the
string and replaces every character outside `{A,T,G,C}` by `'N'`; the double
complement is idempotent, but it is not the identity on lowercase input or on
characters outside `{A,T,G,C}`. -/
theorem c10_double_complement (s : List Char) :
    get_complement (get_complement s) = s.map normalize_char ∧
    get_complement (get_complement (get_complement (get_complement s))) =
      get_complement (get_complement s) ∧
    get_complement (get_complement ['a']) = ['A'] ∧
    get_complement (get_complement ['a']) ≠ ['a'] ∧
    get_complement (get_complement ['x']) = ['N'] ∧
    get_complement (get_complement ['x']) ≠ ['x'] := by
  refine ⟨double_complement_eq_map_normalize s, ?_, by decide, by decide,
    by decide, by decide⟩
  rw [double_complement_eq_map_normalize, double_complement_eq_map_normalize,
    List.map_map]
  exact List.map_congr_left (fun c _ => by
    simp only [Function.comp_apply, normalize_char_idem])

/-! ### Gesture processing (`class GestureProcessor`) -/

/-- One MediaPipe hand landmark `[x, y, z]`. -/
structure Landmark where
  x : ℝ
  y : ℝ
  z : ℝ

/-- Default landmark used to make list indexing total; every access in the
source happens under the guard `len(landmarks) == 21`, where the default is
never consulted. -/
def lorigin : Landmark := ⟨0, 0, 0⟩

/-- `np.linalg.norm(a - b)` on landmark vectors. -/
noncomputable def euclidean_dist (a b : Landmark) : ℝ :=
  Real.sqrt ((a.x - b.x) ^ 2 + (a.y - b.y) ^ 2 + (a.z - b.z) ^ 2)

/-- Result dict of `detect_gesture_type`: a `type` and `confidence`, plus
`distance` for a pinch and `position` for a point. -/
inductive GestureInfo where
  | unknown (confidence : ℝ)
  | pinch (confidence : ℝ) (distance : ℝ)
  | point (confidence : ℝ) (position : Landmark)
  | open_hand (confidence : ℝ)
  | fist (confidence : ℝ)

namespace GestureProcessor

/-- `GestureProcessor.detect_gesture_type`. -/
noncomputable def detect_gesture_type (landmarks : List Landmark) :
    GestureInfo :=
  if landmarks.length ≠ 21 then .unknown 0.0
  else
    let thumb_tip := landmarks.getD 4 lorigin
    let thumb_pip := landmarks.getD 3 lorigin
    let index_tip := landmarks.getD 8 lorigin
    let index_pip := landmarks.getD 6 lorigin
    let middle_tip := landmarks.getD 12 lorigin
    let middle_pip := landmarks.getD 10 lorigin
    let ring_tip := landmarks.getD 16 lorigin
    let ring_pip := landmarks.getD 14 lorigin
    let pinky_tip := landmarks.getD 20 lorigin
    let pinky_pip := landmarks.getD 18 lorigin
    let is_thumb_up : Bool := decide (thumb_tip.x > thumb_pip.x)
    let is_index_up : Bool := decide (index_tip.y < index_pip.y)
    let is_middle_up : Bool := decide (middle_tip.y < middle_pip.y)
    let is_ring_up : Bool := decide (ring_tip.y < ring_pip.y)
    let is_pinky_up : Bool := decide (pinky_tip.y < pinky_pip.y)
    let extended_fingers :=
      [is_thumb_up, is_index_up, is_middle_up, is_ring_up, is_pinky_up]
    let num_extended := extended_fingers.count true
    let pinch_distance := euclidean_dist thumb_tip index_tip
    if pinch_distance < 0.05 then .pinch 0.9 pinch_distance
    else if num_extended = 1 ∧ is_index_up = true then .point 0.8 index_tip
    else if num_extended = 5 then .open_hand 0.8
    else if num_extended = 0 then .fist 0.8
    else .unknown 0.3

/-- `GestureProcessor.calculate_rotation_from_point` result dict. -/
structure RotationResult where
  rotation_x : ℝ
  rotation_y : ℝ

/-- `GestureProcessor.calculate_rotation_from_point`. -/
noncomputable def calculate_rotation_from_point (position : Landmark) :
    RotationResult :=
  let x := position.x
  let y := position.y
  let rotation_y := (x - 0.5) * 360
  let rotation_x := (y - 0.5) * 180
  { rotation_x := rotation_x, rotation_y := rotation_y }

/-- `GestureProcessor.calculate_zoom_from_pinch`:
`max(0.5, min(3.0, 2.0 - distance * 10))`. -/
noncomputable def calculate_zoom_from_pinch (distance : ℝ) : ℝ :=
  max 0.5 (min 3.0 (2.0 - distance * 10))

end GestureProcessor

/-- The ordered decision procedure the C2 claim describes, written from its
words: `Unknown 0` off a 21-landmark sample; `Pinch` on thumb-tip/index-tip
distance below `0.05`; then, from the extension flags, `Point` when exactly
the index finger is extended, `OpenHand` when all five are, `Fist` when none
is, and `Unknown 0.3` otherwise. -/
noncomputable def detect_gesture_type_claim (landmarks : List Landmark) :
    GestureInfo :=
  if landmarks.length ≠ 21 then .unknown 0.0
  else if euclidean_dist (landmarks.getD 4 lorigin) (landmarks.getD 8 lorigin)
      < 0.05 then
    .pinch 0.9
      (euclidean_dist (landmarks.getD 4 lorigin) (landmarks.getD 8 lorigin))
  else if (landmarks.getD 8 lorigin).y < (landmarks.getD 6 lorigin).y ∧
      ¬(landmarks.getD 4 lorigin).x > (landmarks.getD 3 lorigin).x ∧
      ¬(landmarks.getD 12 lorigin).y < (landmarks.getD 10 lorigin).y ∧
      ¬(landmarks.getD 16 lorigin).y < (landmarks.getD 14 lorigin).y ∧
      ¬(landmarks.getD 20 lorigin).y < (landmarks.getD 18 lorigin).y then
    .point 0.8 (landmarks.getD 8 lorigin)
  else if (landmarks.getD 4 lorigin).x > (landmarks.getD 3 lorigin).x ∧
      (landmarks.getD 8 lorigin).y < (landmarks.getD 6 lorigin).y ∧
      (landmarks.getD 12 lorigin).y < (landmarks.getD 10 lorigin).y ∧
      (landmarks.getD 16 lorigin).y < (landmarks.getD 14 lorigin).y ∧
      (landmarks.getD 20 lorigin).y < (landmarks.getD 18 lorigin).y then
    .open_hand 0.8
  else if ¬(landmarks.getD 4 lorigin).x > (landmarks.getD 3 lorigin).x ∧
      ¬(landmarks.getD 8 lorigin).y < (landmarks.getD 6 lorigin).y ∧
      ¬(landmarks.getD 12 lorigin).y < (landmarks.getD 10 lorigin).y ∧
      ¬(landmarks.getD 16 lorigin).y < (landmarks.getD 14 lorigin).y ∧
      ¬(landmarks.getD 20 lorigin).y < (landmarks.getD 18 lorigin).y then
    .fist 0.8
  else .unknown 0.3

/-- The branch structure shared by `detect_gesture_type` and the claim's
decision procedure, over abstract extension conditions `P1..P5` (thumb,
index, middle, ring, pinky): counting flags agrees with the explicit
conjunctions. -/
theorem gesture_decision_eq (dlt : Prop) [Decidable dlt] (dist : ℝ)
    (tip : Landmark) (P1 P2 P3 P4 P5 : Prop) [Decidable P1] [Decidable P2]
    [Decidable P3] [Decidable P4] [Decidable P5] :
    (if dlt then GestureInfo.pinch 0.9 dist
     else if [decide P1, decide P2, decide P3, decide P4,
         decide P5].count true = 1 ∧ decide P2 = true then
       GestureInfo.point 0.8 tip
     else if [decide P1, decide P2, decide P3, decide P4,
         decide P5].count true = 5 then GestureInfo.open_hand 0.8
     else if [decide P1, decide P2, decide P3, decide P4,
         decide P5].count true = 0 then GestureInfo.fist 0.8
     else GestureInfo.unknown 0.3)
    =
    (if dlt then GestureInfo.pinch 0.9 dist
     else if P2 ∧ ¬P1 ∧ ¬P3 ∧ ¬P4 ∧ ¬P5 then GestureInfo.point 0.8 tip
     else if P1 ∧ P2 ∧ P3 ∧ P4 ∧ P5 then GestureInfo.open_hand 0.8
     else if ¬P1 ∧ ¬P2 ∧ ¬P3 ∧ ¬P4 ∧ ¬P5 then GestureInfo.fist 0.8
     else GestureInfo.unknown 0.3) := by
  by_cases hd : dlt
  · rw [if_pos hd, if_pos hd]
  · rw [if_neg hd, if_neg hd]
    by_cases h1 : P1 <;> by_cases h2 : P2 <;> by_cases h3 : P3 <;>
      by_cases h4 : P4 <;> by_cases h5 : P5 <;>
      simp [h1, h2, h3, h4, h5]

/-- C2: `detect_gesture_type` is total and equal to the ordered decision
procedure of the claim; in particular a wrong landmark count yields `Unknown`
with confidence `0` instead of a failure. -/
theorem c2_detect_gesture_type_decision (landmarks : List Landmark) :
    GestureProcessor.detect_gesture_type landmarks =
      detect_gesture_type_claim landmarks := by
  unfold GestureProcessor.detect_gesture_type detect_gesture_type_claim
  by_cases hlen : landmarks.length ≠ 21
  · rw [if_pos hlen, if_pos hlen]
  · rw [if_neg hlen, if_neg hlen]
    dsimp only
    exact gesture_decision_eq _ _ _ _ _ _ _ _

/-! ### C3: gesture → transform mapping (`process_gesture` transformations) -/

/-- The `transformations` value computed by the `process_gesture` handler:
a rotation dict for a point, a zoom for a pinch, a reset for a fist, and the
empty dict (no transform) otherwise. -/
inductive Transformations where
  | rotate (rotation_x : ℝ) (rotation_y : ℝ)
  | zoom (level : ℝ)
  | reset
  | none

/-- The gesture → transformations dispatch inside `process_gesture`. -/
noncomputable def gesture_transformations : GestureInfo → Transformations
  | .point _ pos =>
      let r := GestureProcessor.calculate_rotation_from_point pos
      .rotate r.rotation_x r.rotation_y
  | .pinch _ dist => .zoom (GestureProcessor.calculate_zoom_from_pinch dist)
  | .fist _ => .reset
  | .open_hand _ => .none
  | .unknown _ => .none

/-- C3: `Point{x,y}` maps to a rotation with `rotationY = (x-0.5)*360` and
`rotationX = (y-0.5)*180`; `Pinch{distance}` maps to a zoom level
`clamp(2.0 - distance*10, 0.5, 3.0)`, which lies in `[0.5, 3.0]` for every
input distance; `Fist` maps to `Reset`; `OpenHand` and `Unknown` map to no
transform. -/
theorem c3_transform_mapping :
    (∀ (c : ℝ) (pos : Landmark),
      gesture_transformations (.point c pos) =
        .rotate ((pos.y - 0.5) * 180) ((pos.x - 0.5) * 360)) ∧
    (∀ c d : ℝ,
      gesture_transformations (.pinch c d) =
        .zoom (max 0.5 (min 3.0 (2.0 - d * 10)))) ∧
    (∀ d : ℝ, 0.5 ≤ GestureProcessor.calculate_zoom_from_pinch d ∧
      GestureProcessor.calculate_zoom_from_pinch d ≤ 3.0) ∧
    (∀ c : ℝ, gesture_transformations (.fist c) = .reset) ∧
    (∀ c : ℝ, gesture_transformations (.open_hand c) = .none) ∧
    (∀ c : ℝ, gesture_transformations (.unknown c) = .none) := by
  refine ⟨fun c pos => rfl, fun c d => rfl, fun d => ⟨le_max_left _ _, ?_⟩,
    fun c => rfl, fun c => rfl, fun c => rfl⟩
  exact max_le (by norm_num) (min_le_left _ _)

/-! ### C1: helix geometry -/

theorem flatMap_eq_flatten_map {α β : Type} (l : List α) (f : α → List β) :
    l.flatMap f = (l.map f).flatten := rfl

/-- What the claim says `generate_3d_coordinates` produces: for each index
`i`, the strand-1 base at `(R·cos angle, y, R·sin angle)` followed by the
strand-2 base at `(R·cos (angle+π), y, R·sin (angle+π))`, both with
`pair_index = i`, where `angle = (i/N)·4·π` and `y = (i - N/2)·d`. -/
noncomputable def helix_bases_claim (s : List Char) (R d : ℝ) :
    List DNABase :=
  (List.range s.length).flatMap (fun i =>
    let angle : ℝ := ((i : ℝ) / (s.length : ℝ)) * 4 * Real.pi
    let y : ℝ := ((i : ℝ) - (s.length : ℝ) / 2) * d
    [{ base_type := s.getD i 'N',
       position := (R * Real.cos angle, y, R * Real.sin angle),
       strand := 1, index := i, pair_index := some i },
     { base_type := (get_complement s).getD i 'N',
       position := (R * Real.cos (angle + Real.pi), y,
         R * Real.sin (angle + Real.pi)),
       strand := 2, index := i, pair_index := some i }])

/-- Same points with the strand-2 position written as the reflection
`(-x1, y, -z1)` of the strand-1 position through the helix axis. -/
noncomputable def helix_bases_mirror (s : List Char) (R d : ℝ) :
    List DNABase :=
  (List.range s.length).flatMap (fun i =>
    let angle : ℝ := ((i : ℝ) / (s.length : ℝ)) * 4 * Real.pi
    let y : ℝ := ((i : ℝ) - (s.length : ℝ) / 2) * d
    [{ base_type := s.getD i 'N',
       position := (R * Real.cos angle, y, R * Real.sin angle),
       strand := 1, index := i, pair_index := some i },
     { base_type := (get_complement s).getD i 'N',
       position := (-(R * Real.cos angle), y, -(R * Real.sin angle)),
       strand := 2, index := i, pair_index := some i }])

theorem generate_eq_claim (s : List Char) (R d : ℝ) :
    generate_3d_coordinates s R d = helix_bases_claim s R d := by
  unfold generate_3d_coordinates helix_bases_claim
  dsimp only
  rw [flatMap_eq_flatten_map, flatMap_eq_flatten_map]
  congr 1
  apply List.ext_getElem
  · simp [get_complement]
  · intro i h1 h2
    have hi : i < s.length := by simpa using h2
    have hic : i < (get_complement s).length := by
      simpa [get_complement] using hi
    simp only [List.getElem_map, List.getElem_enum, List.getElem_zip,
      List.getElem_range]
    rw [List.getD_eq_getElem s 'N' hi,
      List.getD_eq_getElem (get_complement s) 'N' hic]
    rw [show ((i : ℝ) / ((s.length : ℕ) : ℝ)) * 4 * Real.pi
        = ((i : ℝ) / ((s.length : ℕ) : ℝ)) * Real.pi * 4 from by ring]

theorem claim_eq_mirror (s : List Char) (R d : ℝ) :
    helix_bases_claim s R d = helix_bases_mirror s R d := by
  unfold helix_bases_claim helix_bases_mirror
  rw [flatMap_eq_flatten_map, flatMap_eq_flatten_map]
  congr 1
  apply List.map_congr_left
  intro i _
  dsimp only
  rw [Real.cos_add_pi, Real.sin_add_pi, mul_neg, mul_neg]

theorem helix_claim_length (s : List Char) (R d : ℝ) :
    (helix_bases_claim s R d).length = 2 * s.length := by
  unfold helix_bases_claim
  rw [flatMap_eq_flatten_map, List.length_flatten, List.map_map]
  have : ∀ L : List ℕ, (∀ n ∈ L, n = 2) → L.sum = 2 * L.length := by
    intro L
    induction L with
    | nil => intro _; simp
    | cons a t ih =>
      intro h
      simp only [List.sum_cons, List.length_cons, h a (by simp)]
      rw [ih (fun n hn => h n (by simp [hn]))]
      ring
  rw [this _ (fun n hn => by
    obtain ⟨i, _, hi⟩ := List.mem_map.mp hn
    simpa using hi.symm)]
  simp

/-- C1: `generate_3d_coordinates` emits, for each index `i` of an `N`-letter
sequence in increasing order, the strand-1 base then the strand-2 base, both
with `pair_index = i`, at the claimed helix positions; the strand-2 point is
the reflection `(-x1, y, -z1)` of the strand-1 point; exactly `2N` records
are produced, and `N = 0` yields the empty list with no division error. -/
theorem c1_generate_3d_coordinates (s : List Char) (R d : ℝ) :
    (generate_3d_coordinates s R d).length = 2 * s.length ∧
    generate_3d_coordinates [] R d = [] ∧
    generate_3d_coordinates s R d = helix_bases_claim s R d ∧
    generate_3d_coordinates s R d = helix_bases_mirror s R d :=
  ⟨by rw [generate_eq_claim]; exact helix_claim_length s R d,
   rfl,
   generate_eq_claim s R d,
   (generate_eq_claim s R d).trans (claim_eq_mirror s R d)⟩

/-! ### Broadcast hub (`broadcast_to_clients`) -/

/-- Effect record of one `broadcast_to_clients` call: which connections the
send was attempted on (in order), which connections received the message, and
the connection registry after the pruning pass. -/
structure BroadcastResult (C : Type) where
  attempted : List C
  delivered : List C
  registry : List C

/-- `broadcast_to_clients`: under the `if active_connections:` guard, try the
send once per registered connection in order, collect the failing connections,
and remove each of them from the registry after the pass (Python
`list.remove` removes the first occurrence, as `List.erase` does).  Send
outcomes are supplied by the oracle `sendOk`. -/
def broadcast_to_clients {C : Type} [DecidableEq C] (sendOk : C → Bool)
    (active_connections : List C) : BroadcastResult C :=
  if active_connections.isEmpty then
    { attempted := [], delivered := [], registry := active_connections }
  else
    let disconnected := active_connections.filter (fun c => !sendOk c)
    { attempted := active_connections,
      delivered := active_connections.filter (fun c => sendOk c),
      registry := List.foldl List.erase active_connections disconnected }

theorem broadcast_attempted_eq {C : Type} [DecidableEq C] (sendOk : C → Bool)
    (conns : List C) : (broadcast_to_clients sendOk conns).attempted = conns := by
  unfold broadcast_to_clients
  by_cases he : conns.isEmpty
  · rw [if_pos he]
    rw [List.isEmpty_iff] at he
    rw [he]
  · rw [if_neg he]

theorem broadcast_delivered_eq {C : Type} [DecidableEq C] (sendOk : C → Bool)
    (conns : List C) : (broadcast_to_clients sendOk conns).delivered =
      conns.filter (fun c => sendOk c) := by
  unfold broadcast_to_clients
  by_cases he : conns.isEmpty
  · rw [if_pos he]
    rw [List.isEmpty_iff] at he
    rw [he]
    rfl
  · rw [if_neg he]

theorem broadcast_registry_eq {C : Type} [DecidableEq C] (sendOk : C → Bool)
    (conns : List C) (h : conns.Nodup) :
    (broadcast_to_clients sendOk conns).registry =
      conns.filter (fun c => sendOk c) := by
  unfold broadcast_to_clients
  by_cases he : conns.isEmpty
  · rw [if_pos he]
    rw [List.isEmpty_iff] at he
    rw [he]
    rfl
  · rw [if_neg he]
    dsimp only
    rw [← List.diff_eq_foldl, List.Nodup.diff_eq_filter h]
    apply List.filter_congr
    intro c hc
    rcases hs : sendOk c with _ | _ <;>
      simp [List.mem_filter, hc, hs]

theorem length_filter_add_length_filter_not {α : Type} (l : List α)
    (p : α → Bool) :
    (l.filter p).length + (l.filter (fun a => !p a)).length = l.length := by
  induction l with
  | nil => rfl
  | cons a t ih =>
    rcases h : p a with _ | _ <;> simp [h] <;> omega

/-- C4: a broadcast attempts the event once on every registered connection;
with a duplicate-free registry, afterwards exactly the connections whose send
failed are removed and every other connection received the event; if exactly
one send fails the registry shrinks by exactly one, and a subsequent
broadcast attempts only the remaining connections. -/
theorem c4_broadcast_prunes_failures (C : Type) [DecidableEq C]
    (sendOk sendOk2 : C → Bool) (conns : List C) (h : conns.Nodup) :
    (broadcast_to_clients sendOk conns).attempted = conns ∧
    (broadcast_to_clients sendOk conns).delivered =
      conns.filter (fun c => sendOk c) ∧
    (broadcast_to_clients sendOk conns).registry =
      conns.filter (fun c => sendOk c) ∧
    ((conns.filter (fun c => !sendOk c)).length = 1 →
      (broadcast_to_clients sendOk conns).registry.length + 1 = conns.length) ∧
    (broadcast_to_clients sendOk2
        (broadcast_to_clients sendOk conns).registry).attempted =
      (broadcast_to_clients sendOk conns).registry := by
  refine ⟨broadcast_attempted_eq sendOk conns, broadcast_delivered_eq sendOk conns,
    broadcast_registry_eq sendOk conns h, fun hone => ?_,
    broadcast_attempted_eq sendOk2 _⟩
  rw [broadcast_registry_eq sendOk conns h]
  have := length_filter_add_length_filter_not conns (fun c => sendOk c)
  simp only at this hone
  omega

/-- C4 witness: two registered connections, the send to connection `1`
fails: the registry becomes `[0]`, one shorter. -/
theorem c4_broadcast_prunes_failures_witness :
    (broadcast_to_clients (fun c => c == 0) [0, 1]).registry = [0] ∧
    (broadcast_to_clients (fun c => c == 0) [0, 1]).registry.length + 1 =
      ([0, 1] : List ℕ).length := by
  have h := c4_broadcast_prunes_failures ℕ (fun c => c == 0)
    (fun c => c == 0) [0, 1] (by decide)
  exact ⟨h.2.2.1.trans (by decide), h.2.2.2.1 (by decide)⟩

/-! ### Shared server state and its mutators -/

/-- `class VisualizationConfig`. -/
structure VisualizationConfig where
  show_bonds : Bool
  show_labels : Bool
  show_backbone : Bool
  show_atoms : Bool
  animation_speed : ℝ
  helix_radius : ℝ
  base_pair_distance : ℝ
  rotation_speed : ℝ

/-- `class DNASequence`. -/
structure DNASequence where
  sequence : List Char
  length : Nat
  bases : List DNABase
  gc_content : ℚ
  melting_temperature : ℕ
  complementary_sequence : List Char

/-- The module-level mutable state: `current_config`, `dna_data`, and
`active_connections` (connections of opaque type `C`). -/
structure ServerState (C : Type) where
  current_config : VisualizationConfig
  dna_data : Option DNASequence
  active_connections : List C

/-- A FastAPI `HTTPException`. -/
inductive HTTPError where
  | httpException (status_code : Nat) (detail : String)

/-- The `generate_random_dna` handler (`GET /api/dna/random/{length}`):
reject lengths outside `[1, 100]` with a 400 without touching the state,
otherwise build the `DNASequence` and store it in `dna_data`. -/
noncomputable def generate_random_dna {C : Type} (rand : Nat → Fin 4)
    (length : ℤ) (st : ServerState C) :
    Except HTTPError DNASequence × ServerState C :=
  if length < 1 ∨ length > 100 then
    (.error (.httpException 400 "Length must be between 1 and 100"), st)
  else
    let sequence := generate_random_sequence rand length.toNat
    let complement := get_complement sequence
    let gc_content := calculate_gc_content sequence
    let melting_temp := calculate_melting_temperature sequence
    let bases := generate_3d_coordinates sequence 2.5 0.34
    let dna_sequence : DNASequence :=
      { sequence := sequence, length := length.toNat, bases := bases,
        gc_content := gc_content, melting_temperature := melting_temp,
        complementary_sequence := complement }
    (.ok dna_sequence, { st with dna_data := some dna_sequence })

/-- The `update_config` handler (`POST /api/config`): replace the config
wholesale, then broadcast (which may prune failing connections). -/
def update_config {C : Type} [DecidableEq C] (sendOk : C → Bool)
    (config : VisualizationConfig) (st : ServerState C) : ServerState C :=
  let st1 := { st with current_config := config }
  { st1 with active_connections :=
      (broadcast_to_clients sendOk st1.active_connections).registry }

/-- The `process_gesture` handler (`POST /api/gesture/process`): classify,
map to transformations, broadcast; returns the result and the state, whose
config and sequence it never touches. -/
noncomputable def process_gesture {C : Type} [DecidableEq C]
    (sendOk : C → Bool) (gesture_landmarks : List Landmark)
    (st : ServerState C) : (GestureInfo × Transformations) × ServerState C :=
  let gesture_info := GestureProcessor.detect_gesture_type gesture_landmarks
  let transformations := gesture_transformations gesture_info
  ((gesture_info, transformations),
   { st with active_connections :=
      (broadcast_to_clients sendOk st.active_connections).registry })

theorem generate_random_sequence_length (rand : Nat → Fin 4) (n : Nat) :
    (generate_random_sequence rand n).length = n := by
  unfold generate_random_sequence
  simp

/-- C5: a generation request with length outside `[1, 100]` is rejected with
HTTP 400 and leaves the stored state (in particular any prior sequence)
unchanged; a length in `[1, 100]` generates a fresh sequence of exactly that
length and stores it, replacing the stored sequence. -/
theorem c5_generate_random_dna_bounds {C : Type} (rand : Nat → Fin 4)
    (length : ℤ) (st : ServerState C) :
    ((length < 1 ∨ 100 < length) →
      (generate_random_dna rand length st).1 =
        .error (.httpException 400 "Length must be between 1 and 100") ∧
      (generate_random_dna rand length st).2 = st) ∧
    (1 ≤ length → length ≤ 100 →
      ∃ dna : DNASequence,
        (generate_random_dna rand length st).1 = .ok dna ∧
        dna.sequence = generate_random_sequence rand length.toNat ∧
        dna.sequence.length = length.toNat ∧
        (generate_random_dna rand length st).2 =
          { st with dna_data := some dna }) := by
  constructor
  · intro hout
    unfold generate_random_dna
    rw [if_pos (by omega)]
    exact ⟨rfl, rfl⟩
  · intro h1 h100
    unfold generate_random_dna
    rw [if_neg (by omega)]
    refine ⟨_, rfl, rfl, generate_random_sequence_length rand length.toNat, rfl⟩

/-- C5 witness: length 150 is rejected leaving a prior state intact, and
length 20 stores a 20-letter sequence. -/
theorem c5_generate_random_dna_bounds_witness :
    ((150 : ℤ) < 1 ∨ (100 : ℤ) < 150) ∧
    (generate_random_dna (fun _ => 0) 150
      (ServerState.mk ⟨false, false, true, false, 1, 2.5, 0.34, 0.005⟩
        none ([] : List ℕ))).2 =
      ServerState.mk ⟨false, false, true, false, 1, 2.5, 0.34, 0.005⟩
        none ([] : List ℕ) ∧
    (generate_random_dna (fun _ => 0) 20
      (ServerState.mk ⟨false, false, true, false, 1, 2.5, 0.34, 0.005⟩
        none ([] : List ℕ))).2.dna_data ≠ none := by
  have hrej := (c5_generate_random_dna_bounds (fun _ => 0) 150
    (ServerState.mk ⟨false, false, true, false, 1, 2.5, 0.34, 0.005⟩
      none ([] : List ℕ))).1 (Or.inr (by norm_num))
  have hok := (c5_generate_random_dna_bounds (fun _ => 0) 20
    (ServerState.mk ⟨false, false, true, false, 1, 2.5, 0.34, 0.005⟩
      none ([] : List ℕ))).2 (by norm_num) (by norm_num)
  obtain ⟨dna, _, _, _, hst⟩ := hok
  refine ⟨Or.inr (by norm_num), hrej.2, ?_⟩
  rw [hst]
  simp

/-- C9: each state mutator touches only its own field: `process_gesture`
changes neither the stored config nor the stored sequence; `update_config`
replaces only the config and keeps the stored sequence; `generate_random_dna`
keeps the config (and the connection registry) unchanged. -/
theorem c9_mutator_frame_conditions {C : Type} [DecidableEq C]
    (sendOk : C → Bool) (lms : List Landmark) (config : VisualizationConfig)
    (rand : Nat → Fin 4) (len : ℤ) (st : ServerState C) :
    ((process_gesture sendOk lms st).2.current_config = st.current_config ∧
     (process_gesture sendOk lms st).2.dna_data = st.dna_data) ∧
    ((update_config sendOk config st).current_config = config ∧
     (update_config sendOk config st).dna_data = st.dna_data) ∧
    ((generate_random_dna rand len st).2.current_config = st.current_config ∧
     (generate_random_dna rand len st).2.active_connections =
       st.active_connections) := by
  refine ⟨⟨rfl, rfl⟩, ⟨rfl, rfl⟩, ?_⟩
  unfold generate_random_dna
  split <;> exact ⟨rfl, rfl⟩
